import Mathlib

/-!
Verification of the passgfw client protocol logic against its C++ sources.

The development shallowly embeds the two C++ client variants of the
repository:

* `src/clients/legacy-cpp/firewall_detector.cpp` (functions prefixed with
  nothing, e.g. `checkURL`, `checkNormalURLOnce`) — the variant with a
  recursion-depth limit, a retry loop and client-data truncation;
* `src/client/firewall_detector.cpp` (functions prefixed with `client`) —
  the variant without those mechanisms.

Strings are modelled as `List Char` (`Str`); the transport / crypto / codec
collaborators (`INetworkClient`) are modelled as a record of pure functions
(`NetEnv`); successive calls that may observe different collaborator
behaviour draw from a stream `Envs : Nat → NetEnv` indexed by a counter that
is threaded through the control flow.  Sleeps and network calls are recorded
in an event trace.
-/

namespace PassGFW

/-- C++ `std::string`, modelled as a list of characters (bytes). -/
abbrev Str := List Char

/-- The whitespace set used by every `find_first_not_of(" \t\r\n")` /
`find_last_not_of(" \t\r\n")` call in `firewall_detector.cpp`. -/
def isWS (c : Char) : Bool :=
  c = ' ' || c = '\t' || c = '\r' || c = '\n'

/-- Trimming leading and trailing whitespace: the
`find_first_not_of` / `find_last_not_of` / `substr` idiom of
`ParseURLList`.  When the string is all whitespace both `find`s return
`npos` and the C++ skips the piece; that case corresponds to
`trimWS s = []`. -/
def trimWS (s : Str) : Str :=
  ((s.dropWhile isWS).reverse.dropWhile isWS).reverse

/-- `url.find("http://") == 0 || url.find("https://") == 0`. -/
def startsHTTP (s : Str) : Bool :=
  "http://".data.isPrefixOf s || "https://".data.isPrefixOf s

/-- `!url.empty() && url.back() == '#'` (the List-endpoint test of
`CheckURL`). -/
def endsWithHash (u : Str) : Bool :=
  u.getLast? = some '#'

/-- Auxiliary scan for `std::string::find`: first absolute index `≥ i`
at which `pat` occurs in the remaining suffix. -/
def findSubAux (pat : Str) : Str → Nat → Option Nat
  | [], i => if pat = [] then some i else none
  | c :: rest, i =>
    if pat.isPrefixOf (c :: rest) then some i else findSubAux pat rest (i + 1)

/-- `s.find(pat, start)` of `std::string`, returning `none` for `npos`. -/
def strFind (s pat : Str) (start : Nat) : Option Nat :=
  findSubAux pat (s.drop start) start

/-- `pat` occurs in `s` at index `i` (specification-side notion of
occurrence, used to state claims about `strFind`). -/
def occursAt (pat s : Str) (i : Nat) : Bool :=
  pat.isPrefixOf (s.drop i)

/-! ## Configuration constants (`src/client/config.h`) -/

def REQUEST_TIMEOUT : Nat := 10
def RETRY_INTERVAL : Nat := 2
def URL_INTERVAL : Nat := 500
def MAX_RETRIES : Nat := 3
def RETRY_DELAY_MS : Nat := 1000
def MAX_LIST_RECURSION_DEPTH : Nat := 5
def NONCE_SIZE : Nat := 32
def MAX_CLIENT_DATA_SIZE : Nat := 200

/-! ## `ParseURLList` (identical in both variants) -/

/-- The `*GFW*` marker token. -/
def marker : Str := "*GFW*".data

/-- One iteration of the fallback line loop of `ParseURLList`: trim the
line, skip it when empty after trimming or when it starts with `#`, keep
it when it starts with `http://` or `https://`.  (`std::getline` lines
that are dropped here are exactly those the C++ `continue`s over.) -/
def keepLine (line : Str) : Option Str :=
  let t := trimWS line
  if t = [] then none
  else if t.head? = some '#' then none
  else if startsHTTP t then some t
  else none

/-- The fallback mode of `ParseURLList`: line-by-line parsing.  The
`std::getline` loop is modelled by splitting on `'\n'`; the loop and the
split differ only in empty trailing pieces, which `keepLine` discards in
either case. -/
def lineFallback (content : Str) : List Str :=
  (content.splitOn '\n').filterMap keepLine

/-- One piece of the `'|'`-split loop in the marker mode of
`ParseURLList`: trim, skip all-whitespace pieces (`url_start == npos`),
keep pieces starting with `http://` or `https://`. -/
def keepPiece (piece : Str) : Option Str :=
  let t := trimWS piece
  if t = [] then none
  else if startsHTTP t then some t
  else none

/-- The marker mode of `ParseURLList` applied to the already-trimmed
body between the markers: the `while (pos < gfw_content.length())`
splitting loop.  The C++ index loop and `splitOn '|'` differ only in
empty trailing pieces, which `keepPiece` discards in either case. -/
def pipeParse (trimmedBody : Str) : List Str :=
  (trimmedBody.splitOn '|').filterMap keepPiece

/-- The content strictly between the first `*GFW*` marker pair of
`content` (`ParseURLList` steps: `content.find(marker)`,
`content.find(marker, start_pos)`, `content.substr(start_pos, end_pos -
start_pos)`); `none` when no such pair exists. -/
def markerBody (content : Str) : Option Str :=
  match strFind content marker 0 with
  | none => none
  | some start0 =>
    let start_pos := start0 + marker.length
    match strFind content marker start_pos with
    | none => none
    | some end_pos => some ((content.drop start_pos).take (end_pos - start_pos))

/-- `FirewallDetector::ParseURLList`.  Marker mode runs only when a
marker pair exists *and* the content between the markers trims to
something nonempty (`trim_start != npos`); in every other case the C++
falls through to the line-based fallback. -/
def parseURLList (content : Str) : List Str :=
  match markerBody content with
  | some body =>
    let trimmed := trimWS body
    if trimmed = [] then lineFallback content
    else pipeParse trimmed
  | none => lineFallback content

/-! ## `ExtractDomain` (identical observable behaviour in both variants) -/

/-- `FirewallDetector::ExtractDomain`: authority part of a URL.  Returns
`[]` (the empty string, the code's malformed-URL result) when the
scheme delimiter `"://"` is absent. -/
def extractDomain (url : Str) : Str :=
  match strFind url "://".data 0 with
  | none => []
  | some proto_end =>
    let domain_start := proto_end + 3
    match strFind url "/".data domain_start with
    | none => url.drop domain_start
    | some path_start => (url.drop domain_start).take (path_start - domain_start)

/-! ## Collaborators and protocol data (`http_interface.h`) -/

/-- `struct HttpResponse` of `http_interface.h`. -/
structure HttpResponse where
  success : Bool
  status_code : Int := 0
  body : Str
  error_msg : Str
deriving DecidableEq, Repr

/-- The `INetworkClient` collaborator: transport, crypto and codec
operations, modelled as pure functions.  `parseJson` returns `none` when
the C++ `ParseJson` throws; flat string-valued JSON objects are modelled
as association lists ordered the way `std::map` orders its keys. -/
structure NetEnv where
  generateRandom : Nat → Str
  toJson : List (Str × Str) → Str
  encryptWithPublicKey : Str → Str
  post : Str → Str → HttpResponse
  get : Str → HttpResponse
  verifySignature : Str → Str → Bool
  parseJson : Str → Option (List (Str × Str))

/-- Stream of collaborator behaviours: call site `k` of the detector run
observes `envs k`, so distinct verification attempts and list fetches
may behave differently (the C++ network client is stateful). -/
abbrev Envs := Nat → NetEnv

/-- Observable events of a run: network calls and deliberate sleeps. -/
inductive Ev where
  | post (url : Str)
  | get (url : Str)
  | sleepMs (ms : Nat)
  | sleepS (s : Nat)
deriving DecidableEq, Repr

/-- Network calls, as opposed to sleeps. -/
def Ev.isNet : Ev → Bool
  | .post _ => true
  | .get _ => true
  | _ => false

/-- Result of one endpoint check: the C++ `bool` return plus the
`domain` out-parameter on success, or the `last_error_` message written
on failure. -/
inductive CheckRes where
  | ok (domain : Str)
  | fail (msg : Str)
deriving DecidableEq, Repr

/-- Result of a stateful run: optional verified domain, the
`last_error_` member after the run, the next collaborator-stream index,
and the event trace. -/
structure RunOut where
  res : Option Str
  err : Str
  next : Nat
  tr : List Ev
deriving DecidableEq, Repr

/-- The `last_error_` text of step 11 of the verification protocol
(`"Nonce mismatch: <url> (expected: <nonce[0..10]>..., actual:
<echo[0..10]>...)"`; both variants clamp the prefix to 10 bytes). -/
def nonceMismatchMsg (url expected actual : Str) : Str :=
  "Nonce mismatch: ".data ++ url ++ " (expected: ".data ++ expected.take 10 ++
    "..., actual: ".data ++ actual.take 10 ++ "...)".data

/-- `last_error_` written by `GetFinalServer` after a full failed pass. -/
def allFailedMsg : Str := "All URL detection failed, retrying...".data

/-! JSON field names used by the protocol (kept as named constants so
that proof scripts can refer to them stably). -/

def keyData : Str := "data".data
def keySignature : Str := "signature".data
def keyNonce : Str := "nonce".data
def keyServerDomain : Str := "server_domain".data
def keyClientData : Str := "client_data".data

/-! ## `CheckNormalURLOnce` — legacy variant (single verification attempt) -/

/-- The `{nonce, client_data}` payload map of the legacy
`CheckNormalURLOnce`, with the caller-supplied data truncated to
`MAX_CLIENT_DATA_SIZE` bytes; listed in `std::map` key order
(`"client_data" < "nonce"`). -/
def legacyPayloadMap (env : NetEnv) (custom_data : Str) : List (Str × Str) :=
  let truncated :=
    if custom_data.length > MAX_CLIENT_DATA_SIZE
    then custom_data.take MAX_CLIENT_DATA_SIZE
    else custom_data
  [(keyClientData, truncated), (keyNonce, env.generateRandom NONCE_SIZE)]

/-- The `{nonce, client_data}` payload map of the current client's
`CheckNormalURL`, which sends the caller-supplied data untruncated. -/
def clientPayloadMap (env : NetEnv) (custom_data : Str) : List (Str × Str) :=
  [(keyClientData, custom_data), (keyNonce, env.generateRandom 32)]

/-- `FirewallDetector::CheckNormalURLOnce` of the legacy variant: one
full challenge-response verification attempt, returning the check
result and the trace of network calls it issued. -/
def checkNormalURLOnce (env : NetEnv) (url custom_data : Str) :
    CheckRes × List Ev :=
  -- 1. generate random data (nonce)
  let random_data := env.generateRandom NONCE_SIZE
  if random_data = [] then
    (.fail ("Failed to generate random data: ".data ++ url), [])
  else
    -- 2. build JSON with nonce and (truncated) custom data
    let payload_json := env.toJson (legacyPayloadMap env custom_data)
    -- 3. encrypt payload JSON with public key
    let encrypted_data := env.encryptWithPublicKey payload_json
    if encrypted_data = [] then
      (.fail ("Failed to encrypt data: ".data ++ url), [])
    else
      -- 4./5. wrap as {"data": …} and POST
      let request_json := env.toJson [(keyData, encrypted_data)]
      let response := env.post url request_json
      let rest : CheckRes :=
        if !response.success then
          .fail ("POST request failed: ".data ++ url ++ " - ".data ++
            response.error_msg)
        else
          -- 6. parse server response JSON
          match env.parseJson response.body with
          | none => .fail ("Failed to parse response JSON: ".data ++ url)
          | some response_data =>
            -- 7. required fields `data`, `signature`
            match response_data.lookup keyData,
                  response_data.lookup keySignature with
            | some server_response_json, some signature =>
              -- 8. verify signature over the `data` field
              if !env.verifySignature server_response_json signature then
                .fail ("Signature verification failed: ".data ++ url)
              else
                -- 9. parse signed server payload
                match env.parseJson server_response_json with
                | none =>
                  .fail ("Failed to parse server response JSON: ".data ++ url)
                | some server_payload =>
                  -- 10. required fields `nonce`, `server_domain`
                  match server_payload.lookup keyNonce,
                        server_payload.lookup keyServerDomain with
                  | some returned_nonce, some returned_domain =>
                    -- 11. verify the echoed nonce
                    if returned_nonce ≠ random_data then
                      .fail (nonceMismatchMsg url random_data returned_nonce)
                    else
                      -- 12. trust the asserted server domain
                      .ok returned_domain
                  | _, _ =>
                    .fail ("Server response missing required fields: ".data ++ url)
            | _, _ =>
              .fail ("Response JSON missing required fields: ".data ++ url)
      (rest, [Ev.post url])

/-- The challenge nonce generated at the start of a verification
attempt against `env`. -/
def attemptNonce (env : NetEnv) : Str :=
  env.generateRandom NONCE_SIZE

/-- The parsed signed server payload of an attempt, when the attempt
reaches protocol step 9: every guard up to and including signature
verification must pass (mirrors the guard chain of
`checkNormalURLOnce`). -/
def serverPayloadOf (env : NetEnv) (url custom_data : Str) :
    Option (List (Str × Str)) :=
  let random_data := env.generateRandom NONCE_SIZE
  if random_data = [] then none
  else
    let payload_json := env.toJson (legacyPayloadMap env custom_data)
    let encrypted_data := env.encryptWithPublicKey payload_json
    if encrypted_data = [] then none
    else
      let request_json := env.toJson [(keyData, encrypted_data)]
      let response := env.post url request_json
      if !response.success then none
      else
        match env.parseJson response.body with
        | none => none
        | some response_data =>
          match response_data.lookup keyData,
                response_data.lookup keySignature with
          | some server_response_json, some signature =>
            if !env.verifySignature server_response_json signature then none
            else env.parseJson server_response_json
          | _, _ => none

/-- The nonce echoed inside the signed server payload of an attempt
(protocol step 10); `some` only when the attempt got past signature
verification and the payload carries a `nonce` field. -/
def echoedNonceOf (env : NetEnv) (url custom_data : Str) : Option Str :=
  (serverPayloadOf env url custom_data).bind (fun p => p.lookup keyNonce)

/-! ## `CheckNormalURL` — current-client variant (single attempt, no retry,
no truncation; `src/client/firewall_detector.cpp` lines 87–239) -/

/-- `FirewallDetector::CheckNormalURL` of the current client: the same
challenge-response attempt but with the caller data sent untruncated and
with no retry loop around it. -/
def clientCheckNormalURL (env : NetEnv) (url custom_data : Str) :
    CheckRes × List Ev :=
  -- 1. generate random data (32 bytes, hardcoded)
  let random_data := env.generateRandom 32
  if random_data = [] then
    (.fail ("Failed to generate random data: ".data ++ url), [])
  else
    -- 2. build JSON with nonce and (untruncated) custom data
    let payload_json := env.toJson (clientPayloadMap env custom_data)
    -- 3. encrypt payload JSON with public key
    let encrypted_data := env.encryptWithPublicKey payload_json
    if encrypted_data = [] then
      (.fail ("Failed to encrypt data: ".data ++ url), [])
    else
      -- 4./5. wrap as {"data": …} and POST
      let request_json := env.toJson [(keyData, encrypted_data)]
      let response := env.post url request_json
      let rest : CheckRes :=
        if !response.success then
          .fail ("POST request failed: ".data ++ url ++ " - ".data ++
            response.error_msg)
        else
          match env.parseJson response.body with
          | none => .fail ("Failed to parse response JSON: ".data ++ url)
          | some response_data =>
            match response_data.lookup keyData,
                  response_data.lookup keySignature with
            | some server_response_json, some signature =>
              if !env.verifySignature server_response_json signature then
                .fail ("Signature verification failed: ".data ++ url)
              else
                match env.parseJson server_response_json with
                | none =>
                  .fail ("Failed to parse server response JSON: ".data ++ url)
                | some server_payload =>
                  match server_payload.lookup keyNonce,
                        server_payload.lookup keyServerDomain with
                  | some returned_nonce, some returned_domain =>
                    if returned_nonce ≠ random_data then
                      .fail (nonceMismatchMsg url random_data returned_nonce)
                    else
                      .ok returned_domain
                  | _, _ =>
                    .fail ("Server response missing required fields: ".data ++ url)
            | _, _ =>
              .fail ("Response JSON missing required fields: ".data ++ url)
      (rest, [Ev.post url])

/-! ## Legacy `CheckNormalURL` — the retry loop (lines 94–131) -/

/-- The retry loop body of the legacy `CheckNormalURL`, starting at the
current attempt (collaborator index `k`); `remaining` counts the
attempts still permitted (`MAX_RETRIES` at entry; the loop gives up when
the last attempt fails).  `err` is the incoming `last_error_`, which a
failing attempt overwrites and a succeeding attempt leaves untouched. -/
def checkNormalURLAttempts (envs : Envs) (url custom err : Str) (k : Nat) :
    Nat → RunOut
  | 0 => ⟨none, err, k, []⟩
  | remaining + 1 =>
    let (res, tr) := checkNormalURLOnce (envs k) url custom
    match res with
    | .ok d => ⟨some d, err, k + 1, tr⟩
    | .fail m =>
      if remaining = 0 then
        -- attempt == MAX_RETRIES: give up with this attempt's error
        ⟨none, m, k + 1, tr⟩
      else
        -- wait RETRY_DELAY_MS, then retry
        let o := checkNormalURLAttempts envs url custom m (k + 1) remaining
        ⟨o.res, o.err, o.next, tr ++ Ev.sleepMs RETRY_DELAY_MS :: o.tr⟩

/-- Legacy `FirewallDetector::CheckNormalURL`: input validation followed
by up to `MAX_RETRIES` verification attempts with `RETRY_DELAY_MS`
between consecutive attempts. -/
def checkNormalURL (envs : Envs) (url custom err : Str) (k : Nat) : RunOut :=
  if url = [] then ⟨none, "Empty URL provided".data, k, []⟩
  else checkNormalURLAttempts envs url custom err k MAX_RETRIES

/-! ## Legacy `CheckURL` / `CheckListURL` (recursion-depth-limited).

The C++ recursion `CheckURL → CheckListURL → CheckURL(depth+1)`
terminates because of the `MAX_LIST_RECURSION_DEPTH` guard; the model
makes that bound structural through a `gas` argument that `checkURL`
initialises to `MAX_LIST_RECURSION_DEPTH + 2 - depth`, so `gas` can
reach `0` only at depths the guard rejects anyway — the `gas = 0` branch
returns exactly the guard's rejection, and the model therefore agrees
with the source at every depth. -/

/-- One step of the sub-endpoint loop of the legacy `CheckListURL`:
unless an earlier sub-endpoint already succeeded, recursively check `u`
through `check` (the depth-incremented dispatcher), sleeping
`URL_INTERVAL` after a failure. -/
def subStep (check : Str → Nat → RunOut) (acc : RunOut) (u : Str) : RunOut :=
  match acc.res with
  | some _ => acc
  | none =>
    let o1 := check u acc.next
    match o1.res with
    | some d => ⟨some d, o1.err, o1.next, acc.tr ++ o1.tr⟩
    | none =>
      ⟨none, o1.err, o1.next, acc.tr ++ o1.tr ++ [Ev.sleepMs URL_INTERVAL]⟩

/-- Legacy `FirewallDetector::CheckURL` with the `CheckListURL` body
inlined: clears `last_error_` (the result's `err` never depends on the
previous value), enforces `MAX_LIST_RECURSION_DEPTH`, then dispatches on
the trailing `#`: a List endpoint is fetched, parsed, and its
sub-endpoints tried in order at `depth + 1`; a Direct endpoint goes to
the retrying `checkNormalURL`. -/
def checkURLGas (envs : Envs) (custom : Str) :
    Nat → Str → Nat → Nat → RunOut
  | 0, url, k, _depth =>
    ⟨none, "Maximum list recursion depth exceeded: ".data ++ url, k, []⟩
  | gas + 1, url, k, depth =>
    if depth > MAX_LIST_RECURSION_DEPTH then
      ⟨none, "Maximum list recursion depth exceeded: ".data ++ url, k, []⟩
    else if endsWithHash url then
      -- `CheckListURL` body
      if url.length < 2 then
        ⟨none, "Invalid list URL: too short".data, k, []⟩
      else
        let actual_url := url.take (url.length - 1)
        if actual_url = [] then
          ⟨none, "Empty URL after removing #".data, k, []⟩
        else
          let response := (envs k).get actual_url
          if !response.success then
            ⟨none, "GET request failed: ".data ++ actual_url ++ " - ".data ++
              response.error_msg, k + 1, [Ev.get actual_url]⟩
          else
            let sub_urls := parseURLList response.body
            if sub_urls = [] then
              ⟨none, "Sub-list empty or parse failed: ".data ++ actual_url,
                k + 1, [Ev.get actual_url]⟩
            else
              let o := sub_urls.foldl
                (subStep (fun u k1 =>
                  checkURLGas envs custom gas u k1 (depth + 1)))
                ⟨none, [], k + 1, []⟩
              match o.res with
              | some d => ⟨some d, o.err, o.next, Ev.get actual_url :: o.tr⟩
              | none =>
                ⟨none, "All URLs in sub-list failed: ".data ++ actual_url,
                  o.next, Ev.get actual_url :: o.tr⟩
    else
      checkNormalURL envs url custom [] k

/-- Legacy `FirewallDetector::CheckURL` at recursion depth `depth`
(`0` at every `GetFinalServer` call site). -/
def checkURL (envs : Envs) (custom url : Str) (k depth : Nat) : RunOut :=
  checkURLGas envs custom (MAX_LIST_RECURSION_DEPTH + 2 - depth) url k depth

/-! ## `GetFinalServer` — the outer discovery loop (identical structure in
both variants; per-endpoint checking via the legacy `checkURL`) -/

/-- One pass of `GetFinalServer` over the URL list: check each endpoint
at depth 0, sleeping `URL_INTERVAL` after every failure. -/
def runPass (envs : Envs) (custom : Str) (urls : List Str) (err : Str)
    (k : Nat) : RunOut :=
  match urls with
  | [] => ⟨none, err, k, []⟩
  | u :: rest =>
    let o := checkURL envs custom u k 0
    match o.res with
    | some d => ⟨some d, o.err, o.next, o.tr⟩
    | none =>
      let o2 := runPass envs custom rest o.err o.next
      ⟨o2.res, o2.err, o2.next, o.tr ++ Ev.sleepMs URL_INTERVAL :: o2.tr⟩

/-- `FirewallDetector::GetFinalServer`: loop over the URL list until an
endpoint verifies; after a fully failed pass, record `allFailedMsg`,
sleep `RETRY_INTERVAL` seconds and start over.  The C++ loop is
unbounded; `fuel` bounds the number of passes modelled, with
`res = none` meaning the call is still blocking. -/
def getFinalServer (envs : Envs) (custom : Str) (urls : List Str)
    (err : Str) (k : Nat) : Nat → RunOut
  | 0 => ⟨none, err, k, []⟩
  | fuel + 1 =>
    let o := runPass envs custom urls err k
    match o.res with
    | some d => ⟨some d, o.err, o.next, o.tr⟩
    | none =>
      let o2 := getFinalServer envs custom urls allFailedMsg o.next fuel
      ⟨o2.res, o2.err, o2.next, o.tr ++ Ev.sleepS RETRY_INTERVAL :: o2.tr⟩

/-! ## Detector state and its public mutators (`SetURLList`, `AddURL`,
`passgfw_set_url_list`) -/

/-- The mutable members of a `FirewallDetector` instance relevant to the
endpoint set and error reporting. -/
structure DetectorState where
  url_list : List Str
  last_error : Str
deriving DecidableEq, Repr

/-- `FirewallDetector::SetURLList`: wholesale replacement
(`url_list_ = urls`). -/
def setURLList (st : DetectorState) (urls : List Str) : DetectorState :=
  { st with url_list := urls }

/-- `FirewallDetector::AddURL`: `url_list_.push_back(url)`. -/
def addURL (st : DetectorState) (url : Str) : DetectorState :=
  { st with url_list := st.url_list ++ [url] }

/-- The C-ABI `passgfw_set_url_list` (non-null path): drop null entries,
then `SetURLList`. -/
def passgfwSetURLList (st : DetectorState) (urls : List (Option Str)) :
    DetectorState :=
  setURLList st (urls.filterMap (fun x => x))

/-! ## Current-client `CheckURL` / `CheckListURL`
(`src/client/firewall_detector.cpp` lines 76–85 and 241–304): no
recursion-depth limit.  The C++ recursion is unbounded, so the model is
indexed by `fuel`; `none` marks fuel exhaustion (the C++ would still be
recursing). -/

/-- One step of the sub-endpoint loop of the current-client
`CheckListURL`; `none` (fuel exhaustion) aborts the whole loop. -/
def clientSubStep (check : Str → Nat → Option RunOut)
    (acc : Option RunOut) (u : Str) : Option RunOut :=
  match acc with
  | none => none
  | some a =>
    match a.res with
    | some _ => acc
    | none =>
      match check u a.next with
      | none => none
      | some o1 =>
        match o1.res with
        | some d => some ⟨some d, o1.err, o1.next, a.tr ++ o1.tr⟩
        | none =>
          some ⟨none, o1.err, o1.next,
            a.tr ++ o1.tr ++ [Ev.sleepMs URL_INTERVAL]⟩

/-- Current-client `FirewallDetector::CheckURL` with the `CheckListURL`
body inlined: dispatch on the trailing `#` with *no* recursion-depth
check; a List endpoint is fetched, parsed, and its sub-endpoints tried
in order; a Direct endpoint gets a single verification attempt (no
retry loop). -/
def clientCheckURL (envs : Envs) (custom : Str) :
    Nat → Str → Nat → Option RunOut
  | 0, _, _ => none
  | fuel + 1, url, k =>
    if endsWithHash url then
      -- client `CheckListURL` body
      let actual_url := url.take (url.length - 1)
      let response := (envs k).get actual_url
      if !response.success then
        some ⟨none, "GET request failed: ".data ++ actual_url ++ " - ".data ++
          response.error_msg, k + 1, [Ev.get actual_url]⟩
      else
        let sub_urls := parseURLList response.body
        if sub_urls = [] then
          some ⟨none, "Sub-list empty or parse failed: ".data ++ actual_url,
            k + 1, [Ev.get actual_url]⟩
        else
          match sub_urls.foldl
              (clientSubStep (fun u k1 => clientCheckURL envs custom fuel u k1))
              (some ⟨none, [], k + 1, []⟩) with
          | none => none
          | some a =>
            match a.res with
            | some d => some ⟨some d, a.err, a.next, Ev.get actual_url :: a.tr⟩
            | none =>
              some ⟨none, "All URLs in sub-list failed: ".data ++ actual_url,
                a.next, Ev.get actual_url :: a.tr⟩
    else
      let (res, tr) := clientCheckNormalURL (envs k) url custom
      match res with
      | .ok d => some ⟨some d, [], k + 1, tr⟩
      | .fail m => some ⟨none, m, k + 1, tr⟩

/-! ## Concrete collaborator behaviours (used by witnesses and
counterexamples) -/

/-- A fixed challenge nonce value. -/
def nonceW : Str := "NONCE".data

/-- Opaque token standing for the serialized signed server payload. -/
def innerJson : Str := "INNER".data

/-- Opaque token standing for the raw POST response body. -/
def outerBody : Str := "OUTER".data

/-- The signature blob accepted by the witness verifier. -/
def sigW : Str := "SIG".data

/-- The domain asserted by the witness server. -/
def domW : Str := "final.example.com".data

/-- A flat JSON rendering for the codec collaborator of the witnesses. -/
def renderJson (kvs : List (Str × Str)) : Str :=
  (kvs.map (fun p => p.1 ++ "=".data ++ p.2 ++ ";".data)).flatten

/-- A collaborator against which one verification attempt succeeds:
the POST response carries a validly signed payload echoing the nonce
and asserting `domW`. -/
def okEnv : NetEnv where
  generateRandom := fun _ => nonceW
  toJson := renderJson
  encryptWithPublicKey := fun s => "E".data ++ s
  post := fun _ _ => ⟨true, 200, outerBody, []⟩
  get := fun _ => ⟨false, 0, [], "no list".data⟩
  verifySignature := fun d s => d = innerJson && s = sigW
  parseJson := fun s =>
    if s = outerBody then
      some [(keyData, innerJson), (keySignature, sigW)]
    else if s = innerJson then
      some [(keyNonce, nonceW), (keyServerDomain, domW)]
    else none

/-- Like `okEnv` but every POST fails at the transport layer with
message `m`. -/
def postFailEnv (m : Str) : NetEnv :=
  { okEnv with post := fun _ _ => ⟨false, 0, [], m⟩ }

/-- Like `okEnv` but the validly signed payload echoes a *wrong* nonce. -/
def mismatchEnv : NetEnv :=
  { okEnv with
    parseJson := fun s =>
      if s = outerBody then
        some [(keyData, innerJson), (keySignature, sigW)]
      else if s = innerJson then
        some [(keyNonce, "EVIL!".data), (keyServerDomain, domW)]
      else none }

/-- A GET response presenting `s` as a one-element marker-delimited URL
list. -/
def listResp (s : Str) : HttpResponse :=
  ⟨true, 200, "*GFW* ".data ++ s ++ " *GFW*".data, []⟩

/-- A collaborator serving a chain of nested List endpoints:
`http://lᵢ` lists `http://lᵢ₊₁#` for `i = 1..5`, `http://l6` lists the
Direct endpoint `http://d`, and the Direct verification succeeds. -/
def chainEnv : NetEnv :=
  { okEnv with
    get := fun u =>
      if u = "http://l1".data then listResp "http://l2#".data
      else if u = "http://l2".data then listResp "http://l3#".data
      else if u = "http://l3".data then listResp "http://l4#".data
      else if u = "http://l4".data then listResp "http://l5#".data
      else if u = "http://l5".data then listResp "http://l6#".data
      else if u = "http://l6".data then listResp "http://d".data
      else ⟨false, 0, [], "no such list".data⟩ }

/-- The chain collaborator at every stream index. -/
def chainEnvs : Envs := fun _ => chainEnv

/-- Attempt-varying collaborators whose POST always fails, with a
distinct transport message per attempt (`boom`, `boom!`, `boom!!`, …). -/
def boomEnvs : Envs := fun k => postFailEnv ("boom".data ++ List.replicate k '!')

/-- Collaborators whose first attempt fails at the transport layer and
whose second attempt verifies: exercises retry success after failure. -/
def retryEnvs : Envs := fun k => if k = 0 then postFailEnv "boom".data else okEnv

/-- The one-success collaborator at every stream index. -/
def okEnvs : Envs := fun _ => okEnv

/-- The whitespace-bodied marker-pair input of the `ParseURLList`
analysis: a marker pair whose between-content is a single space,
preceded by an unrelated URL line. -/
def wsMarkerContent : Str := "https://z.com\n*GFW* *GFW*".data

/-!
# Theorems

Helper lemmas first, then one theorem (plus witness or counterexample)
per verified property.
-/

/-- `findSubAux` returns `none` exactly when the pattern occurs at no
index of the scanned suffix. -/
theorem findSubAux_none_iff (pat : Str) (hp : pat ≠ []) :
    ∀ (l : Str) (i : Nat),
      findSubAux pat l i = none ↔ ∀ j, pat.isPrefixOf (l.drop j) = false := by
  have hnil : pat.isPrefixOf ([] : Str) = false := by
    cases pat with
    | nil => exact absurd rfl hp
    | cons p0 ps => rfl
  intro l
  induction l with
  | nil =>
    intro i
    simp [findSubAux, hp, hnil]
  | cons c r ih =>
    intro i
    simp only [findSubAux]
    by_cases hpre : pat.isPrefixOf (c :: r) = true
    · simp only [hpre, if_true]
      constructor
      · intro h; cases h
      · intro h
        have := h 0
        simp only [List.drop_zero] at this
        rw [hpre] at this
        cases this
    · have hpre' : pat.isPrefixOf (c :: r) = false := by
        cases hb : pat.isPrefixOf (c :: r)
        · rfl
        · exact absurd hb hpre
      simp only [hpre', Bool.false_eq_true, if_false]
      rw [ih (i + 1)]
      constructor
      · intro h j
        cases j with
        | zero => simpa using hpre'
        | succ j' => simpa using h j'
      · intro h j
        have := h (j + 1)
        simpa using this

/-- When `findSubAux` returns `some m`, the pattern occurs at relative
offset `m - i` and at no earlier offset, and `m ≥ i`. -/
theorem findSubAux_some_spec (pat : Str) :
    ∀ (l : Str) (i m : Nat), findSubAux pat l i = some m →
      i ≤ m ∧ pat.isPrefixOf (l.drop (m - i)) = true ∧
        ∀ j < m - i, pat.isPrefixOf (l.drop j) = false := by
  intro l
  induction l with
  | nil =>
    intro i m h
    simp only [findSubAux] at h
    by_cases hp : pat = []
    · rw [if_pos hp] at h
      cases h
      refine ⟨Nat.le_refl _, ?_, ?_⟩
      · simp [hp]
      · intro j hj
        omega
    · rw [if_neg hp] at h
      cases h
  | cons c r ih =>
    intro i m h
    simp only [findSubAux] at h
    by_cases hpre : pat.isPrefixOf (c :: r) = true
    · rw [if_pos hpre] at h
      cases h
      refine ⟨Nat.le_refl _, ?_, ?_⟩
      · simpa using hpre
      · intro j hj
        omega
    · have hpre' : pat.isPrefixOf (c :: r) = false := by
        cases hb : pat.isPrefixOf (c :: r)
        · rfl
        · exact absurd hb hpre
      rw [if_neg hpre] at h
      obtain ⟨h1, h2, h3⟩ := ih (i + 1) m h
      have hmi : m - i = (m - (i + 1)) + 1 := by omega
      refine ⟨by omega, ?_, ?_⟩
      · rw [hmi]
        simpa using h2
      · intro j hj
        cases j with
        | zero => simpa using hpre'
        | succ j' =>
          have : j' < m - (i + 1) := by omega
          simpa using h3 j' this

/-- When the pattern occurs at offset `n` and at no earlier offset,
`findSubAux` finds exactly that offset. -/
theorem findSubAux_of_least (pat : Str) (hp : pat ≠ []) :
    ∀ (l : Str) (n i : Nat), pat.isPrefixOf (l.drop n) = true →
      (∀ j < n, pat.isPrefixOf (l.drop j) = false) →
      findSubAux pat l i = some (i + n) := by
  intro l
  induction l with
  | nil =>
    intro n i hocc _
    simp only [List.drop_nil] at hocc
    cases pat with
    | nil => exact absurd rfl hp
    | cons c cs => cases hocc
  | cons c r ih =>
    intro n i hocc hleast
    simp only [findSubAux]
    cases n with
    | zero =>
      simp only [List.drop_zero] at hocc
      rw [if_pos hocc]
      simp
    | succ n' =>
      have h0 : pat.isPrefixOf (c :: r) = false := by
        simpa using hleast 0 (Nat.succ_pos n')
      rw [h0]
      simp only [Bool.false_eq_true, if_false]
      have hocc' : pat.isPrefixOf (r.drop n') = true := by simpa using hocc
      have hleast' : ∀ j < n', pat.isPrefixOf (r.drop j) = false := by
        intro j hj
        simpa using hleast (j + 1) (by omega)
      rw [ih n' (i + 1) hocc' hleast']
      congr 1
      omega

/-- `findSubAux` locating a single character, in terms of
`takeWhile`. -/
theorem findSubAux_single (ch : Char) :
    ∀ (l : Str) (i : Nat),
      findSubAux [ch] l i =
        if l.any (fun c => c == ch) then
          some (i + (l.takeWhile (fun c => c != ch)).length)
        else none := by
  intro l
  induction l with
  | nil => intro i; simp [findSubAux]
  | cons c r ih =>
    intro i
    simp only [findSubAux, List.any_cons, List.takeWhile]
    by_cases hc : c = ch
    · subst hc
      have : [c].isPrefixOf (c :: r) = true := by simp [List.isPrefixOf]
      rw [if_pos this]
      simp
    · have hne : [ch].isPrefixOf (c :: r) = false := by
        simp [List.isPrefixOf, Ne.symm hc]
      rw [hne]
      simp only [Bool.false_eq_true, if_false, ih (i + 1)]
      have hbeq : (c == ch) = false := by simpa using hc
      rw [hbeq]
      have hbne : (c != ch) = true := by simp [bne, hbeq]
      rw [hbne]
      by_cases hany : r.any (fun c => c == ch) = true
      · rw [hany]
        simp only [Bool.false_or, hany, if_true, List.length_cons]
        congr 1
        omega
      · have : r.any (fun c => c == ch) = false := by
          cases hb : r.any (fun c => c == ch)
          · rfl
          · exact absurd hb hany
        rw [this]
        simp

/-- A list with no occurrence of `ch` is its own `takeWhile (· != ch)`. -/
theorem takeWhile_of_no_occurrence (ch : Char) :
    ∀ l : Str, l.any (fun c => c == ch) = false →
      l.takeWhile (fun c => c != ch) = l := by
  intro l
  induction l with
  | nil => intro _; rfl
  | cons c r ih =>
    intro h
    simp only [List.any_cons, Bool.or_eq_false_iff] at h
    rw [List.takeWhile_cons, if_pos (by simp [bne, h.1]), ih h.2]

/-- C2.  The recursion-depth bound holds only in the legacy client; the
current client (`src/client/firewall_detector.cpp`) never consults
`MAX_LIST_RECURSION_DEPTH`.  Against `chainEnvs` (six nested List
endpoints ending in a Direct endpoint): the legacy `checkURL` run never
POSTs to the Direct endpoint reached at depth 6; a dispatch at depth 6 is
rejected immediately with the recursion-limit error and issues no network
call; a five-level chain is allowed to attempt verification (and
verifies); while the current client's `clientCheckURL` on the same
six-level chain issues the POST at the offending depth and even returns
its result. -/
theorem claim2_depth_bound_legacy_vs_client :
    ((checkURL chainEnvs [] "http://l1#".data 0 0).res = none ∧
      (checkURL chainEnvs [] "http://l1#".data 0 0).tr.contains
        (Ev.post "http://d".data) = false) ∧
    (checkURL chainEnvs [] "http://d".data 9 6 =
      ⟨none, "Maximum list recursion depth exceeded: http://d".data, 9, []⟩) ∧
    ((checkURL chainEnvs [] "http://l2#".data 0 0).res = some domW ∧
      (checkURL chainEnvs [] "http://l2#".data 0 0).tr.contains
        (Ev.post "http://d".data) = true) ∧
    ((clientCheckURL chainEnvs [] 30 "http://l1#".data 0).map
      (fun o => (o.res, o.tr.contains (Ev.post "http://d".data))) =
        some (some domW, true)) := by
  decide

/-- C4.  The bounded retry loop exists only in the legacy client.
Against `boomEnvs` (every POST fails, with a distinct transport message
per attempt): the legacy `CheckNormalURL` performs exactly
`MAX_RETRIES` = 3 attempts with a `RETRY_DELAY_MS` sleep between
consecutive attempts and surfaces the third attempt's error unmodified,
while the current client's `CheckNormalURL` performs exactly one attempt,
sleeps never, and returns that single attempt's error. -/
theorem claim4_retry_count_legacy_vs_client :
    (checkNormalURL boomEnvs "http://u".data [] [] 0 =
      ⟨none, "POST request failed: http://u - boom!!".data, 3,
        [Ev.post "http://u".data, Ev.sleepMs RETRY_DELAY_MS,
         Ev.post "http://u".data, Ev.sleepMs RETRY_DELAY_MS,
         Ev.post "http://u".data]⟩) ∧
    ((checkNormalURLOnce (boomEnvs 2) "http://u".data []).1 =
      CheckRes.fail "POST request failed: http://u - boom!!".data) ∧
    (clientCheckNormalURL (boomEnvs 0) "http://u".data [] =
      (CheckRes.fail "POST request failed: http://u - boom".data,
        [Ev.post "http://u".data])) := by
  decide

/-- C5 counterexample.  `SetURLList` is a public operation that replaces
the endpoint set wholesale, so the set can shrink: replacing a
two-element list by a one-element list both shortens it and drops a
member. -/
theorem claim5_counterexample :
    (setURLList ⟨["https://a.com".data, "https://b.com".data], []⟩
        ["https://c.com".data]).url_list.length = 1 ∧
    (⟨["https://a.com".data, "https://b.com".data], []⟩ :
        DetectorState).url_list.length = 2 ∧
    (setURLList ⟨["https://a.com".data, "https://b.com".data], []⟩
        ["https://c.com".data]).url_list.contains "https://a.com".data =
      false ∧
    (⟨["https://a.com".data, "https://b.com".data], []⟩ :
        DetectorState).url_list.contains "https://a.com".data = true := by
  decide

/-- C5 (amended).  `AddURL` only appends: it preserves every existing
entry, adds the new one at the end, grows the length by exactly one and
leaves the error state alone; `SetURLList` (and its C-ABI wrapper, which
additionally drops null entries) replaces the entire list and may
therefore shrink it. -/
theorem claim5_endpoint_set_operations (st : DetectorState) (u : Str)
    (urls : List Str) (ours : List (Option Str)) :
    (addURL st u).url_list = st.url_list ++ [u] ∧
    (∀ x, x ∈ st.url_list → x ∈ (addURL st u).url_list) ∧
    u ∈ (addURL st u).url_list ∧
    (addURL st u).url_list.length = st.url_list.length + 1 ∧
    (addURL st u).last_error = st.last_error ∧
    (setURLList st urls).url_list = urls ∧
    (passgfwSetURLList st ours).url_list = ours.filterMap (fun x => x) := by
  refine ⟨rfl, ?_, ?_, by simp [addURL], rfl, rfl, rfl⟩
  · intro x hx
    simp [addURL, hx]
  · simp [addURL]

/-- C5 witness: the amended statement applied to a concrete state. -/
theorem claim5_witness :
    "https://a.com".data ∈
      (addURL ⟨["https://a.com".data], []⟩ "https://b.com".data).url_list :=
  (claim5_endpoint_set_operations ⟨["https://a.com".data], []⟩
      "https://b.com".data [] []).2.1 "https://a.com".data (by decide)

set_option maxRecDepth 4000 in
/-- C6.  Client-data truncation happens only in the legacy client: for
201 bytes of caller data, the legacy payload map handed to `ToJson` (and
then to the encryption step) carries exactly the first
`MAX_CLIENT_DATA_SIZE` = 200 bytes, whereas the current client's payload
map carries all 201 bytes untruncated; both variants' attempts run to
success on this payload under `okEnv`. -/
theorem claim6_truncation_legacy_vs_client :
    legacyPayloadMap okEnv (List.replicate 201 'a') =
      [(keyClientData, List.replicate 200 'a'), (keyNonce, nonceW)] ∧
    clientPayloadMap okEnv (List.replicate 201 'a') =
      [(keyClientData, List.replicate 201 'a'), (keyNonce, nonceW)] ∧
    (checkNormalURLOnce okEnv "http://u".data (List.replicate 201 'a')).1 =
      CheckRes.ok domW ∧
    (clientCheckNormalURL okEnv "http://u".data (List.replicate 201 'a')).1 =
      CheckRes.ok domW := by
  decide

/-- C7 counterexample.  `wsMarkerContent` contains a `*GFW*` marker pair
(the body between them is a single space), yet `ParseURLList` returns a
URL that lies *outside* the markers — the pipe-split of the
between-markers content would be empty, and the code falls back to
line-based parsing instead. -/
theorem claim7_counterexample :
    markerBody wsMarkerContent = some " ".data ∧
    parseURLList wsMarkerContent = ["https://z.com".data] ∧
    pipeParse (trimWS " ".data) = [] ∧
    lineFallback wsMarkerContent = ["https://z.com".data] := by
  decide

/-- C9 counterexample.  With `retryEnvs` (first attempt fails at the
transport layer, second attempt verifies), the per-endpoint check
succeeds, yet `last_error_` still holds the first attempt's failure
message afterwards — the failure message of an earlier attempt of the
same check remains observable through `GetLastError`. -/
theorem claim9_counterexample :
    (checkURL retryEnvs [] "http://u".data 0 0).res = some domW ∧
    (checkURL retryEnvs [] "http://u".data 0 0).err =
      "POST request failed: http://u - boom".data ∧
    (checkURL retryEnvs [] "http://u".data 0 0).err.isEmpty = false := by
  decide

/-- C10.  With an empty endpoint set, `GetFinalServer` never returns and
never touches the network: each modelled pass (`fuel` of them) checks
zero endpoints, records the all-failed message, sleeps the inter-pass
interval and repeats; the trace is exactly one `RETRY_INTERVAL`-second
sleep per pass. -/
theorem claim10_empty_list_blocks (envs : Envs) (custom err : Str)
    (k fuel : Nat) :
    getFinalServer envs custom [] err k fuel =
      ⟨none, if fuel = 0 then err else allFailedMsg, k,
        List.replicate fuel (Ev.sleepS RETRY_INTERVAL)⟩ ∧
    ((getFinalServer envs custom [] err k fuel).tr.all
      (fun e => !e.isNet)) = true := by
  have main : ∀ (f : Nat) (e : Str), getFinalServer envs custom [] e k f =
      ⟨none, if f = 0 then e else allFailedMsg, k,
        List.replicate f (Ev.sleepS RETRY_INTERVAL)⟩ := by
    intro f
    induction f with
    | zero => intro e; rfl
    | succ n ih =>
      intro e
      simp only [getFinalServer, runPass, ih allFailedMsg]
      simp [List.replicate_succ]
  refine ⟨main fuel err, ?_⟩
  rw [main fuel err]
  simp [List.all_eq_true, Ev.isNet]

/-- C8.  `ExtractDomain` is a pure function of its input string: when no
`"://"` occurs (at any index up to the length) it returns the empty
string (the code's malformed-URL result); when `"://"` first occurs at
index `i`, it returns exactly the characters strictly between the
delimiter and the next `/` — i.e. the maximal `/`-free segment after the
delimiter, which is everything after the delimiter when no `/`
follows — port included, since the segment is copied verbatim. -/
theorem claim8_extractDomain (url : Str) :
    ((∀ j, j ≤ url.length → occursAt "://".data url j = false) →
      extractDomain url = []) ∧
    (∀ i, occursAt "://".data url i = true →
      (∀ j, j < i → occursAt "://".data url j = false) →
      extractDomain url = (url.drop (i + 3)).takeWhile (fun c => c != '/')) := by
  constructor
  · intro hno
    have hall : ∀ j, ("://".data).isPrefixOf (url.drop j) = false := by
      intro j
      by_cases hj : j ≤ url.length
      · simpa [occursAt] using hno j hj
      · have : url.drop j = [] := List.drop_eq_nil_of_le (by omega)
        simp [this, List.isPrefixOf]
    have hfind : strFind url "://".data 0 = none := by
      unfold strFind
      rw [List.drop_zero]
      exact (findSubAux_none_iff "://".data (by decide) url 0).mpr hall
    simp [extractDomain, hfind]
  · intro i hocc hleast
    have hocc' : ("://".data).isPrefixOf (url.drop i) = true := by
      simpa [occursAt] using hocc
    have hleast' : ∀ j, j < i → ("://".data).isPrefixOf (url.drop j) = false := by
      intro j hj
      simpa [occursAt] using hleast j hj
    have hfind : strFind url "://".data 0 = some i := by
      unfold strFind
      rw [List.drop_zero]
      simpa using findSubAux_of_least "://".data (by decide) url i 0 hocc' hleast'
    have hslash :
        strFind url "/".data (i + 3) =
          findSubAux ['/'] (url.drop (i + 3)) (i + 3) := rfl
    rw [findSubAux_single] at hslash
    by_cases hany : (url.drop (i + 3)).any (fun c => c == '/') = true
    · rw [if_pos hany] at hslash
      have htw :
          (url.drop (i + 3)).take
              ((url.drop (i + 3)).takeWhile (fun c => c != '/')).length =
            (url.drop (i + 3)).takeWhile (fun c => c != '/') :=
        (List.prefix_iff_eq_take.mp (List.takeWhile_prefix _)).symm
      simp only [extractDomain, hfind, hslash]
      rw [Nat.add_sub_cancel_left]
      exact htw
    · have hany' : (url.drop (i + 3)).any (fun c => c == '/') = false := by
        cases hb : (url.drop (i + 3)).any (fun c => c == '/')
        · rfl
        · exact absurd hb hany
      rw [hany'] at hslash
      simp only [Bool.false_eq_true, if_false] at hslash
      simp only [extractDomain, hfind, hslash]
      exact (takeWhile_of_no_occurrence '/' (url.drop (i + 3)) hany').symm

/-- C8 witness: the spec's own example, `"https://a.b.com:443/x"`,
extracted through the theorem. -/
theorem claim8_witness :
    extractDomain "https://a.b.com:443/x".data = "a.b.com:443".data := by
  have h := (claim8_extractDomain "https://a.b.com:443/x".data).2 5
    (by decide) (by decide)
  rw [h]
  decide

/-- Unfolding lemma: the legacy dispatcher on a Direct endpoint (no
trailing `#`) at a non-rejected depth runs the retrying
`checkNormalURL`. -/
theorem checkURLGas_direct (envs : Envs) (custom : Str) (gas : Nat)
    (url : Str) (k depth : Nat)
    (hdep : ¬ depth > MAX_LIST_RECURSION_DEPTH)
    (hdir : endsWithHash url = false) :
    checkURLGas envs custom (gas + 1) url k depth =
      checkNormalURL envs url custom [] k := by
  rw [checkURLGas.eq_2, if_neg hdep, hdir]
  simp

/-- C9 (amended).  `last_error_` is overwritten on every failed attempt
and cleared at the start of each per-endpoint `CheckURL` call — but not
between retry attempts of the same check: for a Direct endpoint, if the
first attempt succeeds the reported error is empty regardless of any
previous state, while if the first attempt fails with `m1` and a retry
then succeeds, the check reports success with `last_error_` still
holding `m1`. -/
theorem claim9_last_error (envs : Envs) (url custom : Str) (k : Nat)
    (hne : url ≠ []) (hdir : endsWithHash url = false) :
    (∀ d, (checkNormalURLOnce (envs k) url custom).1 = CheckRes.ok d →
      checkURL envs custom url k 0 =
        ⟨some d, [], k + 1, (checkNormalURLOnce (envs k) url custom).2⟩) ∧
    (∀ m1 d, (checkNormalURLOnce (envs k) url custom).1 = CheckRes.fail m1 →
      (checkNormalURLOnce (envs (k + 1)) url custom).1 = CheckRes.ok d →
      (checkURL envs custom url k 0).res = some d ∧
      (checkURL envs custom url k 0).err = m1) := by
  have e1 : checkURL envs custom url k 0 =
      checkNormalURLAttempts envs url custom [] k (2 + 1) := by
    unfold checkURL
    rw [show MAX_LIST_RECURSION_DEPTH + 2 - 0 = 6 + 1 from rfl]
    rw [checkURLGas_direct envs custom 6 url k 0 (by decide) hdir]
    unfold checkNormalURL
    rw [if_neg hne]
    rfl
  constructor
  · intro d hd
    rcases hp : checkNormalURLOnce (envs k) url custom with ⟨res, tr⟩
    rw [hp] at hd
    simp only at hd
    subst hd
    rw [e1, checkNormalURLAttempts.eq_2, hp]
  · intro m1 d h1 h2
    rcases hp : checkNormalURLOnce (envs k) url custom with ⟨res, tr⟩
    rw [hp] at h1
    simp only at h1
    subst h1
    rcases hp2 : checkNormalURLOnce (envs (k + 1)) url custom with ⟨res2, tr2⟩
    rw [hp2] at h2
    simp only at h2
    subst h2
    rw [e1, checkNormalURLAttempts.eq_2, hp]
    simp only [if_neg (by decide : ¬(2 : Nat) = 0)]
    rw [checkNormalURLAttempts.eq_2, hp2]
    exact ⟨rfl, rfl⟩

/-- C9 witness: the amended behaviour at `retryEnvs` — the check
succeeds on the second attempt and `last_error_` still holds the first
attempt's transport failure. -/
theorem claim9_witness :
    (checkURL retryEnvs [] "http://u".data 0 0).res = some domW ∧
    (checkURL retryEnvs [] "http://u".data 0 0).err =
      "POST request failed: http://u - boom".data :=
  (claim9_last_error retryEnvs "http://u".data [] 0 (by decide)
      (by decide)).2 "POST request failed: http://u - boom".data domW
    (by decide) (by decide)

/-- C1.  Nonce round-trip of a verification attempt: (i) a successful
attempt implies the nonce echoed inside the signed server payload equals
the Challenge nonce generated for the attempt; (ii) whenever the attempt
gets past signature verification to a well-formed server payload
(`serverPayloadOf … = some sp`, which requires the signature to have
verified) whose echoed nonce differs from the Challenge in any way, the
attempt fails with exactly the nonce-mismatch error. -/
theorem claim1_nonce_roundtrip (env : NetEnv) (url custom_data : Str) :
    (∀ d, (checkNormalURLOnce env url custom_data).1 = CheckRes.ok d →
      echoedNonceOf env url custom_data = some (attemptNonce env)) ∧
    (∀ sp n rd, serverPayloadOf env url custom_data = some sp →
      List.lookup keyNonce sp = some n →
      List.lookup keyServerDomain sp = some rd →
      n ≠ attemptNonce env →
      (checkNormalURLOnce env url custom_data).1 =
        CheckRes.fail (nonceMismatchMsg url (attemptNonce env) n)) := by
  constructor
  ·
    intro d h
    simp only [checkNormalURLOnce] at h
    simp only [echoedNonceOf, serverPayloadOf, attemptNonce]
    by_cases h1 : env.generateRandom NONCE_SIZE = []
    · simp [h1] at h
    · simp only [if_neg h1] at h ⊢
      by_cases h2 :
          env.encryptWithPublicKey (env.toJson (legacyPayloadMap env custom_data)) = []
      · simp [h2] at h
      · simp only [if_neg h2] at h ⊢
        cases h3 : (env.post url (env.toJson [(keyData,
            env.encryptWithPublicKey
              (env.toJson (legacyPayloadMap env custom_data)))])).success with
        | false => rw [h3] at h; simp at h
        | true =>
          rw [h3] at h
          simp only [Bool.not_true, Bool.false_eq_true, if_false] at h ⊢
          cases h4 : env.parseJson (env.post url (env.toJson [(keyData,
              env.encryptWithPublicKey
                (env.toJson (legacyPayloadMap env custom_data)))])).body with
          | none => rw [h4] at h; simp at h
          | some response_data =>
            rw [h4] at h
            simp only at h ⊢
            cases h5 : List.lookup keyData response_data with
            | none => rw [h5] at h; simp at h
            | some srj =>
              rw [h5] at h
              cases h6 : List.lookup keySignature response_data with
              | none => rw [h6] at h; simp at h
              | some sg =>
                rw [h6] at h
                simp only at h ⊢
                by_cases h7 : env.verifySignature srj sg
                · simp only [h7, Bool.not_true, Bool.false_eq_true, if_false] at h ⊢
                  cases h8 : env.parseJson srj with
                  | none => rw [h8] at h; simp at h
                  | some sp =>
                    rw [h8] at h
                    simp only [Option.some_bind] at h ⊢
                    cases h9 : List.lookup keyNonce sp with
                    | none => rw [h9] at h; simp at h
                    | some rn =>
                      rw [h9] at h
                      cases h10 : List.lookup keyServerDomain sp with
                      | none => rw [h10] at h; simp at h
                      | some rd =>
                        rw [h10] at h
                        simp only at h
                        by_cases h11 : rn = env.generateRandom NONCE_SIZE
                        · rw [h11]
                        · rw [if_pos h11] at h
                          cases h
                · simp [h7] at h
  ·
    intro sp n rd hsp hn hrd hne
    simp only [serverPayloadOf] at hsp
    simp only [checkNormalURLOnce]
    have hR : attemptNonce env = env.generateRandom NONCE_SIZE := rfl
    rw [hR] at hne ⊢
    by_cases h1 : env.generateRandom NONCE_SIZE = []
    · rw [if_pos h1] at hsp; cases hsp
    · rw [if_neg h1] at hsp
      rw [if_neg h1]
      by_cases h2 :
          env.encryptWithPublicKey (env.toJson (legacyPayloadMap env custom_data)) = []
      · rw [if_pos h2] at hsp; cases hsp
      · rw [if_neg h2] at hsp
        rw [if_neg h2]
        cases h3 : (env.post url (env.toJson [(keyData,
            env.encryptWithPublicKey
              (env.toJson (legacyPayloadMap env custom_data)))])).success with
        | false => rw [h3] at hsp; simp at hsp
        | true =>
          rw [h3] at hsp
          simp only [Bool.not_true, Bool.false_eq_true, if_false] at hsp ⊢
          cases h4 : env.parseJson (env.post url (env.toJson [(keyData,
              env.encryptWithPublicKey
                (env.toJson (legacyPayloadMap env custom_data)))])).body with
          | none => rw [h4] at hsp; cases hsp
          | some response_data =>
            rw [h4] at hsp
            simp only at hsp ⊢
            cases h5 : List.lookup keyData response_data with
            | none => rw [h5] at hsp; cases hsp
            | some srj =>
              rw [h5] at hsp
              cases h6 : List.lookup keySignature response_data with
              | none => rw [h6] at hsp; cases hsp
              | some sg =>
                rw [h6] at hsp
                simp only at hsp ⊢
                by_cases h7 : env.verifySignature srj sg
                · simp only [h7, Bool.not_true, Bool.false_eq_true,
                    if_false] at hsp ⊢
                  rw [hsp]
                  simp only
                  rw [hn, hrd]
                  simp only
                  rw [if_pos hne]
                · simp [h7] at hsp

/-- C1 witness: against `mismatchEnv` — a validly signed payload echoing
the wrong nonce — the attempt fails with exactly the nonce-mismatch
error, through the theorem. -/
theorem claim1_witness :
    (checkNormalURLOnce mismatchEnv "http://u".data []).1 =
      CheckRes.fail (nonceMismatchMsg "http://u".data nonceW "EVIL!".data) :=
  (claim1_nonce_roundtrip mismatchEnv "http://u".data []).2
    [(keyNonce, "EVIL!".data), (keyServerDomain, domW)] "EVIL!".data domW
    (by decide) (by decide) (by decide) (by decide)


theorem checkNormalURLAttempts_ok (envs : Envs) (url custom : Str) :
    ∀ (rem : Nat) (err : Str) (k : Nat) (d : Str),
      (checkNormalURLAttempts envs url custom err k rem).res = some d →
      ∃ k2, (checkNormalURLOnce (envs k2) url custom).1 = CheckRes.ok d := by
  intro rem
  induction rem with
  | zero =>
    intro err k d h
    simp [checkNormalURLAttempts] at h
  | succ n ih =>
    intro err k d h
    rw [checkNormalURLAttempts.eq_2] at h
    rcases hp : checkNormalURLOnce (envs k) url custom with ⟨res, tr⟩
    rw [hp] at h
    cases res with
    | ok d0 =>
      refine ⟨k, ?_⟩
      rw [hp]
      simpa using h
    | fail m =>
      by_cases hz : n = 0
      · subst hz
        simp at h
      · simp only [if_neg hz] at h
        exact ih m (k + 1) d (by simpa using h)

theorem checkNormalURL_ok (envs : Envs) (url custom err : Str) (k : Nat)
    (d : Str) :
    (checkNormalURL envs url custom err k).res = some d →
    ∃ k2, (checkNormalURLOnce (envs k2) url custom).1 = CheckRes.ok d := by
  intro h
  unfold checkNormalURL at h
  by_cases h0 : url = []
  · rw [if_pos h0] at h
    cases h
  · rw [if_neg h0] at h
    exact checkNormalURLAttempts_ok envs url custom MAX_RETRIES err k d h

theorem foldl_subStep_ok (check : Str → Nat → RunOut) :
    ∀ (subs : List Str) (acc : RunOut) (d : Str),
      (subs.foldl (subStep check) acc).res = some d →
      acc.res = some d ∨ ∃ u k1, (check u k1).res = some d := by
  intro subs
  induction subs with
  | nil =>
    intro acc d h
    exact Or.inl h
  | cons u rest ih =>
    intro acc d h
    rw [List.foldl_cons] at h
    rcases ih (subStep check acc u) d h with h1 | h1
    · unfold subStep at h1
      cases hres : acc.res with
      | some d0 =>
        rw [hres] at h1
        simp only at h1
        rw [hres] at h1
        left
        exact h1
      | none =>
        rw [hres] at h1
        simp only at h1
        cases hc : (check u acc.next).res with
        | some d1 =>
          rw [hc] at h1
          simp only at h1
          right
          refine ⟨u, acc.next, ?_⟩
          rw [hc, h1]
        | none =>
          rw [hc] at h1
          simp only at h1
          cases h1
    · exact Or.inr h1

theorem checkURLGas_ok (envs : Envs) (custom : Str) :
    ∀ (gas : Nat) (url : Str) (k depth : Nat) (d : Str),
      (checkURLGas envs custom gas url k depth).res = some d →
      ∃ k2 u, (checkNormalURLOnce (envs k2) u custom).1 = CheckRes.ok d := by
  intro gas
  induction gas with
  | zero =>
    intro url k depth d h
    simp [checkURLGas] at h
  | succ g ih =>
    intro url k depth d h
    rw [checkURLGas.eq_2] at h
    by_cases hdep : depth > MAX_LIST_RECURSION_DEPTH
    · rw [if_pos hdep] at h
      cases h
    · rw [if_neg hdep] at h
      cases hdir : endsWithHash url with
      | false =>
        rw [hdir] at h
        simp only [Bool.false_eq_true, if_false] at h
        obtain ⟨k2, hk2⟩ := checkNormalURL_ok envs url custom [] k d h
        exact ⟨k2, url, hk2⟩
      | true =>
        rw [hdir] at h
        rw [if_pos rfl] at h
        simp only at h
        by_cases hlen : url.length < 2
        · rw [if_pos hlen] at h
          cases h
        · rw [if_neg hlen] at h
          by_cases hact : url.take (url.length - 1) = []
          · rw [if_pos hact] at h
            cases h
          · rw [if_neg hact] at h
            by_cases hsucc :
                (!((envs k).get (url.take (url.length - 1))).success) = true
            · rw [if_pos hsucc] at h
              cases h
            · rw [if_neg hsucc] at h
              by_cases hsub :
                  parseURLList ((envs k).get (url.take (url.length - 1))).body = []
              · rw [if_pos hsub] at h
                cases h
              · rw [if_neg hsub] at h
                cases ho : (List.foldl
                    (subStep fun u k1 => checkURLGas envs custom g u k1 (depth + 1))
                    ⟨none, [], k + 1, []⟩
                    (parseURLList ((envs k).get (url.take (url.length - 1))).body)).res with
                | none =>
                  rw [ho] at h
                  simp only at h
                  cases h
                | some d0 =>
                  rw [ho] at h
                  simp only at h
                  rcases foldl_subStep_ok _ _ _ _ ho with hacc | ⟨u, k1, hu⟩
                  · cases hacc
                  · obtain ⟨k2, u2, hk2⟩ := ih u k1 (depth + 1) d0 hu
                    refine ⟨k2, u2, ?_⟩
                    rw [hk2]
                    congr 1
                    simpa using h

theorem runPass_ok (envs : Envs) (custom : Str) :
    ∀ (urls : List Str) (err : Str) (k : Nat) (d : Str),
      (runPass envs custom urls err k).res = some d →
      ∃ k2 u, (checkNormalURLOnce (envs k2) u custom).1 = CheckRes.ok d := by
  intro urls
  induction urls with
  | nil =>
    intro err k d h
    cases h
  | cons u rest ih =>
    intro err k d h
    simp only [runPass] at h
    cases hc : (checkURL envs custom u k 0).res with
    | some d0 =>
      rw [hc] at h
      simp only at h
      obtain ⟨k2, u2, hk2⟩ :=
        checkURLGas_ok envs custom (MAX_LIST_RECURSION_DEPTH + 2 - 0) u k 0 d0 hc
      refine ⟨k2, u2, ?_⟩
      rw [hk2]
      congr 1
      simpa using h
    | none =>
      rw [hc] at h
      simp only at h
      exact ih _ _ d h

theorem getFinalServer_ok (envs : Envs) (custom : Str) (urls : List Str) :
    ∀ (fuel : Nat) (err : Str) (k : Nat) (d : Str),
      (getFinalServer envs custom urls err k fuel).res = some d →
      ∃ k2 u, (checkNormalURLOnce (envs k2) u custom).1 = CheckRes.ok d := by
  intro fuel
  induction fuel with
  | zero =>
    intro err k d h
    cases h
  | succ n ih =>
    intro err k d h
    simp only [getFinalServer] at h
    cases hr : (runPass envs custom urls err k).res with
    | some d0 =>
      rw [hr] at h
      simp only at h
      obtain ⟨k2, u2, hk2⟩ := runPass_ok envs custom urls err k d0 hr
      refine ⟨k2, u2, ?_⟩
      rw [hk2]
      congr 1
      simpa using h
    | none =>
      rw [hr] at h
      simp only at h
      exact ih allFailedMsg _ d h

/-- C3.  Whenever the blocking discovery loop returns a domain, that
domain was produced by an endpoint check that completed the full
challenge-response verification successfully (a `CheckRes.ok` of the
single-attempt verifier); and when no attempt can ever verify, the loop
never returns — the fuel-indexed model yields `none` (still blocking)
for every fuel, so no failure value is ever surfaced to the caller. -/
theorem claim3_getFinalServer_verified (envs : Envs) (custom : Str)
    (urls : List Str) (err : Str) (k fuel : Nat) :
    (∀ d, (getFinalServer envs custom urls err k fuel).res = some d →
      ∃ k2 u, (checkNormalURLOnce (envs k2) u custom).1 = CheckRes.ok d) ∧
    ((∀ k2 u d, (checkNormalURLOnce (envs k2) u custom).1 ≠ CheckRes.ok d) →
      (getFinalServer envs custom urls err k fuel).res = none) := by
  constructor
  · intro d h
    exact getFinalServer_ok envs custom urls fuel err k d h
  · intro hall
    cases hres : (getFinalServer envs custom urls err k fuel).res with
    | none => rfl
    | some d =>
      obtain ⟨k2, u, hk⟩ := getFinalServer_ok envs custom urls fuel err k d hres
      exact absurd hk (hall k2 u d)

/-- C3 witness: one pass over a single verifying endpoint returns
`domW`, and the theorem produces the verifying attempt behind it. -/
theorem claim3_witness :
    ∃ k2 u, (checkNormalURLOnce (okEnvs k2) u []).1 = CheckRes.ok domW :=
  (claim3_getFinalServer_verified okEnvs [] ["http://u".data] [] 0 1).1
    domW (by decide)

/-- C7 (amended).  `ParseURLList` uses the line-based fallback iff the
input has no `*GFW*` marker pair *or* the content strictly between the
first marker pair is empty/all-whitespace; only a marker pair with
non-whitespace between-content makes the result come exclusively from
splitting that (trimmed) content on `'|'`.  The final clause relates the
`std::string::find`-based `markerBody` to the declarative notion of a
pair of marker occurrences. -/
theorem claim7_parse_modes (content : Str) :
    (markerBody content = none → parseURLList content = lineFallback content) ∧
    (∀ body, markerBody content = some body → trimWS body = [] →
      parseURLList content = lineFallback content) ∧
    (∀ body, markerBody content = some body → trimWS body ≠ [] →
      parseURLList content = pipeParse (trimWS body)) ∧
    (markerBody content = none ↔
      ¬ ∃ i j, occursAt marker content i = true ∧
        occursAt marker content j = true ∧ i + marker.length ≤ j) := by
  refine ⟨?_, ?_, ?_, ?_, ?_⟩
  · intro h
    simp [parseURLList, h]
  · intro body hb ht
    simp [parseURLList, hb, ht]
  · intro body hb ht
    simp [parseURLList, hb, ht]
  · -- `markerBody = none → no marker pair`
    intro hnone
    rintro ⟨i, j, hi, hj, hle⟩
    simp only [markerBody] at hnone
    cases hf : strFind content marker 0 with
    | none =>
      have hf' : findSubAux marker content 0 = none := by
        simpa [strFind] using hf
      have hall := (findSubAux_none_iff marker (by decide) content 0).mp hf'
      have hi' : marker.isPrefixOf (content.drop i) = true := by
        simpa [occursAt] using hi
      rw [hall i] at hi'
      cases hi'
    | some i0 =>
      rw [hf] at hnone
      simp only at hnone
      cases hf2 : strFind content marker (i0 + marker.length) with
      | some e =>
        rw [hf2] at hnone
        cases hnone
      | none =>
        have hspec1 := findSubAux_some_spec marker content 0 i0
          (by simpa [strFind] using hf)
        have hmin : ∀ j2, j2 < i0 →
            marker.isPrefixOf (content.drop j2) = false := by
          intro j2 hj2
          have := hspec1.2.2 j2 (by omega)
          simpa using this
        have hi0le : i0 ≤ i := by
          by_contra hlt
          push_neg at hlt
          have hz := hmin i hlt
          have hi' : marker.isPrefixOf (content.drop i) = true := by
            simpa [occursAt] using hi
          rw [hz] at hi'
          cases hi'
        have hnone2 := (findSubAux_none_iff marker (by decide)
            (content.drop (i0 + marker.length)) (i0 + marker.length)).mp
          (by simpa [strFind] using hf2)
        have hj' : marker.isPrefixOf (content.drop j) = true := by
          simpa [occursAt] using hj
        have hdrop := hnone2 (j - (i0 + marker.length))
        rw [List.drop_drop] at hdrop
        have harith :
            i0 + marker.length + (j - (i0 + marker.length)) = j := by
          omega
        rw [harith] at hdrop
        rw [hdrop] at hj'
        cases hj'
  · -- `no marker pair → markerBody = none`
    intro hno
    cases hm : markerBody content with
    | none => rfl
    | some body =>
      exfalso
      simp only [markerBody] at hm
      cases hf : strFind content marker 0 with
      | none =>
        rw [hf] at hm
        cases hm
      | some i0 =>
        rw [hf] at hm
        simp only at hm
        cases hf2 : strFind content marker (i0 + marker.length) with
        | none =>
          rw [hf2] at hm
          cases hm
        | some e =>
          have hspec1 := findSubAux_some_spec marker content 0 i0
            (by simpa [strFind] using hf)
          have hocc1 : occursAt marker content i0 = true := by
            have := hspec1.2.1
            simpa [occursAt] using this
          have hspec2 := findSubAux_some_spec marker
            (content.drop (i0 + marker.length)) (i0 + marker.length) e
            (by simpa [strFind] using hf2)
          have hge : i0 + marker.length ≤ e := hspec2.1
          have hocc2 : occursAt marker content e = true := by
            have h2 := hspec2.2.1
            rw [List.drop_drop] at h2
            have harith :
                i0 + marker.length + (e - (i0 + marker.length)) = e := by
              omega
            rw [harith] at h2
            simpa [occursAt] using h2
          exact hno ⟨i0, e, hocc1, hocc2, hge⟩

/-- C7 witness: the spec's marker-mode example, parsed through the
theorem's marker-mode clause. -/
theorem claim7_witness :
    parseURLList "*GFW* https://x.com | https://y.com *GFW*".data =
      ["https://x.com".data, "https://y.com".data] := by
  have h := (claim7_parse_modes
      "*GFW* https://x.com | https://y.com *GFW*".data).2.2.1
    " https://x.com | https://y.com ".data (by decide) (by decide)
  rw [h]
  decide

end PassGFW
